import Mathlib

/-!
Verification of the linus-pr-bot repository: a shallow embedding of its
comment generator (`linus-generator.ts`), PR analyzer (`pr-analyzer.ts`),
webhook gate (`webhook-handler.ts`) and GitHub client normalization
(`github-client.ts`), with theorems settling the frozen claims.

Strings are modelled as `List Char` (`Str`); JavaScript `includes`,
`startsWith` and `endsWith` correspond to substring containment,
`List.isPrefixOf` and `List.isSuffixOf`.  The per-call draws of
`Math.random()` used for phrase selection are modelled as explicit
natural-number oracles, reduced modulo the pool length exactly as
`Math.floor(Math.random() * pool.length)` indexes the pool.
-/

abbrev Str := List Char

def str (s : String) : Str := s.data

/-- Number of starting positions at which the pattern `p` occurs in `s`. -/
def countOcc (p : Str) : Str → Nat
  | [] => 0
  | c :: rest => (if p.isPrefixOf (c :: rest) then 1 else 0) + countOcc p rest

/-- JavaScript `s.includes(p)`: `p` occurs as a contiguous substring of `s`. -/
def containsSub (p : Str) : Str → Bool
  | [] => p.isEmpty
  | c :: rest => p.isPrefixOf (c :: rest) || containsSub p rest

/-- Number of occurrences of the character `c` in `s`. -/
def countChar (c : Char) : Str → Nat
  | [] => 0
  | d :: rest => (if d = c then 1 else 0) + countChar c rest

/-- Decimal digit to character, as JavaScript number rendering does. -/
def digitChar (d : Nat) : Char := Char.ofNat (48 + d)

/-- Fuel-based decimal rendering accumulator (fuel `n+1` always suffices). -/
def natToStrGo : Nat → Nat → Str → Str
  | 0, _, acc => acc
  | fuel + 1, n, acc =>
      if n < 10 then digitChar n :: acc
      else natToStrGo fuel (n / 10) (digitChar (n % 10) :: acc)

/-- Decimal rendering of a natural number (JS template interpolation). -/
def natToStr (n : Nat) : Str := natToStrGo (n + 1) n []

/-- Decimal rendering of an integer (JS template interpolation). -/
def intToStr (i : Int) : Str :=
  if i < 0 then '-' :: natToStr i.natAbs else natToStr i.toNat

/-- ASCII lower-casing of one character (JS `toLowerCase` on ASCII input). -/
def charLower (c : Char) : Char :=
  if 'A' ≤ c ∧ c ≤ 'Z' then Char.ofNat (c.toNat + 32) else c

/-- JS `s.toLowerCase()` restricted to its ASCII behaviour. -/
def lowerStr (s : Str) : Str := s.map charLower

/-- The hidden marker token embedded in every bot comment. -/
def marker : Str := str "<!-- linus-pr-bot -->"

/-!  ## Data model (`pr-analyzer.ts`, `github-client.ts`)

`Issue.type` is carried as a plain string, which is what the TypeScript
runtime actually holds once the static annotation is erased; the
four-kind severity enum of the `Issue` interface is the separate
predicate `validSeverity`.  -/

structure Issue where
  type : Str
  file : Option Str
  message : Str
  line : Option Int
deriving DecidableEq, Repr

/-- The four severity kinds of the `Issue` interface in `pr-analyzer.ts`. -/
def validSeverity (t : Str) : Bool :=
  t = str "critical" || t = str "major" || t = str "minor" || t = str "style"

structure PullRequestData where
  number : Nat
  title : Str
  body : Str
  userLogin : Str
  headSha : Str
  headRef : Str
  baseSha : Str
  baseRef : Str
  additions : Int
  deletions : Int
  changed_files : Int
  commits : Int
  mergeable : Option Bool
  draft : Bool
deriving DecidableEq, Repr

structure FileChange where
  filename : Str
  status : Str
  additions : Int
  deletions : Int
  changes : Int
  patch : Option Str
deriving DecidableEq, Repr

structure CommitRec where
  message : Str
  sha : Str
deriving DecidableEq, Repr

structure Summary where
  totalChanges : Int
  linesAdded : Int
  linesDeleted : Int
  filesChanged : Int
  commits : Int
  isDraft : Bool
  isMergeable : Option Bool
deriving DecidableEq, Repr

structure PRAnalysis where
  prData : PullRequestData
  files : List FileChange
  commits : List CommitRec
  summary : Summary
  issues : List Issue
  positives : List Str
  concerns : List Str
deriving DecidableEq, Repr

/-!  ## Comment composer (`linus-generator.ts`)  -/

def openingsCritical : List Str :=
  [ str "Ok, this is problematic.",
    str "What were you thinking?",
    str "This needs serious work.",
    str "Hold on. Let me understand what happened here." ]

def openingsMajor : List Str :=
  [ str "Right, let's talk about this.",
    str "I have some concerns.",
    str "This needs attention.",
    str "Well, this is... interesting." ]

def openingsPositive : List Str :=
  [ str "Not bad. Actually, not bad at all.",
    str "Ok, this looks reasonable.",
    str "Finally, someone who gets it.",
    str "This is more like it." ]

def openingsNeutral : List Str :=
  [ str "Let me look at this.",
    str "So, here's what I see.",
    str "Alright, let's review this.",
    str "Here's my take on this PR." ]

/-- `getRandomOpening`: pool keyed by the `type` string (unknown keys fall
back to the neutral pool), phrase picked by the random draw `r`. -/
def getRandomOpening (r : Nat) (type : Str) : Str :=
  let options :=
    if type = str "critical" then openingsCritical
    else if type = str "major" then openingsMajor
    else if type = str "positive" then openingsPositive
    else openingsNeutral
  options.getD (r % options.length) []

def closingsNeedsWork : List Str :=
  [ str "Fix these issues and we'll talk.",
    str "Come back when you've addressed these problems.",
    str "This needs work before it's ready." ]

def closingsShipIt : List Str :=
  [ str "Good work. Merging this makes sense.",
    str "This is fine. Ship it.",
    str "Looks good to me." ]

def closingsMinorFixes : List Str :=
  [ str "Address the minor issues and this should be good to go.",
    str "Small fixes needed, but overall solid work.",
    str "Clean up these details and we're good." ]

def closingsSeveral : List Str :=
  [ str "Several things to address here.",
    str "Multiple issues need attention.",
    str "Let's get these problems sorted out." ]

/-- `getRandomClosing(totalIssues, majorIssues, positives)` with the random
draw `r` made explicit. -/
def getRandomClosing (r : Nat) (totalIssues majorIssues positives : Nat) : Str :=
  if majorIssues > 3 then closingsNeedsWork.getD (r % closingsNeedsWork.length) []
  else if totalIssues = 0 ∧ positives > 0 then closingsShipIt.getD (r % closingsShipIt.length) []
  else if totalIssues ≤ 2 then closingsMinorFixes.getD (r % closingsMinorFixes.length) []
  else closingsSeveral.getD (r % closingsSeveral.length) []

/-- `addBotSignature`: prepend the marker if absent, append the default
attribution if no "- Linus" is present. -/
def addBotSignature (comment : Str) : Str :=
  let c1 := if containsSub marker comment then comment
            else marker ++ str "\n" ++ comment
  if containsSub (str "- Linus") c1 then c1
  else c1 ++ str "\n\n*- Linus (Bot)*"

/-- The AI path of `generateComment`: the LLM text (`choices[0]?.message?.content
|| ''`) post-processed by `addBotSignature`. -/
def generateAICommentOut (content : Option Str) : Str :=
  addBotSignature (content.getD [])

def countCritical (issues : List Issue) : Nat :=
  (issues.filter (fun i => i.type = str "critical")).length

def countMajor (issues : List Issue) : Nat :=
  (issues.filter (fun i => i.type = str "major")).length

/-- Opening line of the template path: bucket by severity, phrase by `r1`. -/
def openingFor (a : PRAnalysis) (r1 : Nat) : Str :=
  if countCritical a.issues > 0 then getRandomOpening r1 (str "critical")
  else if countMajor a.issues > 2 then getRandomOpening r1 (str "major")
  else if a.positives.length > a.issues.length then getRandomOpening r1 (str "positive")
  else getRandomOpening r1 (str "neutral")

def statsLine (s : Summary) : Str :=
  str "**Stats:** +" ++ intToStr s.linesAdded ++ str "/-" ++ intToStr s.linesDeleted
    ++ str " lines across " ++ intToStr s.filesChanged ++ str " files\n\n"

def positivesBlock (positives : List Str) : Str :=
  if positives.length > 0 then
    str "**What's Good:**\n"
      ++ (positives.map (fun p => str "- " ++ p ++ str "\n")).flatten
      ++ str "\n"
  else []

def issueLine (i : Issue) : Str :=
  str "- " ++ i.message
    ++ (match i.file with
        | some f => str " (`" ++ f ++ str "`)"
        | none => [])
    ++ str "\n"

def issueGroup (header : Str) (l : List Issue) : Str :=
  if l.length > 0 then header ++ (l.map issueLine).flatten else []

def issuesBlock (issues : List Issue) : Str :=
  str "**Issues:**\n"
    ++ issueGroup (str "\n🔥 **Critical Issues:**\n") (issues.filter (fun i => i.type = str "critical"))
    ++ issueGroup (str "\n⚠️ **Major Issues:**\n") (issues.filter (fun i => i.type = str "major"))
    ++ issueGroup (str "\n📝 **Minor Issues:**\n") (issues.filter (fun i => i.type = str "minor"))
    ++ issueGroup (str "\n🎨 **Style Issues:**\n") (issues.filter (fun i => i.type = str "style"))
    ++ str "\n"

def concernsBlock (concerns : List Str) : Str :=
  if concerns.length > 0 then
    str "**Concerns:**\n"
      ++ (concerns.map (fun c => str "- " ++ c ++ str "\n")).flatten
      ++ str "\n"
  else []

/-- Closing line of the template path (note: the `majorIssues` argument is
the outer numeric count from line 135, not the shadowed inner array). -/
def closingFor (a : PRAnalysis) (r2 : Nat) : Str :=
  getRandomClosing r2 a.issues.length (countMajor a.issues) a.positives.length

/-- `generateTemplateComment`, with the two random draws explicit. -/
def generateTemplateComment (a : PRAnalysis) (r1 r2 : Nat) : Str :=
  marker ++ str "\n"
    ++ str "## Code Review\n\n"
    ++ openingFor a r1
    ++ str "\n\n"
    ++ statsLine a.summary
    ++ positivesBlock a.positives
    ++ (if a.issues.length > 0 then issuesBlock a.issues else [])
    ++ concernsBlock a.concerns
    ++ closingFor a r2
    ++ str "\n\n*- Linus (Bot)*"

/-!  ## Diff/metadata analyzer (`pr-analyzer.ts`)

The optional per-file AI call is abstracted as a function
`codeFn : FileChange → List Issue` standing for `analyzeCodeChanges`;
`analyzeCodeChanges` itself (AI first, rule-based fallback) and the
conversion of a parsed LLM response are embedded below.  -/

def largeFilesIssue (n : Int) : Issue :=
  { type := str "major", file := none,
    message := str "This PR touches " ++ intToStr n
      ++ str " files. That's a lot. Did you consider breaking this down?",
    line := none }

def largeLinesIssue (n : Int) : Issue :=
  { type := str "major", file := none,
    message := intToStr n ++ str " line changes. This is getting unwieldy.",
    line := none }

def shortCommitIssue (c : CommitRec) : Issue :=
  { type := str "minor", file := none,
    message := str "Commit message \"" ++ c.message
      ++ str "\" is too short. Be more descriptive.",
    line := none }

def vagueFixIssue (c : CommitRec) : Issue :=
  { type := str "minor", file := none,
    message := str "\"" ++ c.message ++ str "\" - what exactly did you fix? Be specific.",
    line := none }

def noTestsIssue : Issue :=
  { type := str "major", file := none,
    message := str "No tests? Really? How do you know this actually works?",
    line := none }

def shortTitleIssue : Issue :=
  { type := str "minor", file := none,
    message := str "PR title is too short. Be more descriptive.", line := none }

def lackingDescIssue : Issue :=
  { type := str "minor", file := none,
    message := str "PR description is lacking. What does this actually do?", line := none }

def commitIssues (c : CommitRec) : List Issue :=
  (if c.message.length < 10 then [shortCommitIssue c] else [])
    ++ (if containsSub (str "fix") (lowerStr c.message) = true ∧ c.message.length < 20
        then [vagueFixIssue c] else [])

def hasTestFiles (files : List FileChange) : Bool :=
  files.any (fun file =>
    containsSub (str "test") file.filename ||
    containsSub (str "spec") file.filename ||
    (str ".test.ts").isSuffixOf file.filename ||
    (str ".spec.ts").isSuffixOf file.filename)

def hasCodeFiles (files : List FileChange) : Bool :=
  files.any (fun file =>
    !containsSub (str "test") file.filename &&
    !containsSub (str "spec") file.filename &&
    ((str ".ts").isSuffixOf file.filename || (str ".js").isSuffixOf file.filename))

/-- The per-file loop body: code inspection runs only when `file.patch` is
truthy (present and non-empty). -/
def perFileIssues (codeFn : FileChange → List Issue) (f : FileChange) : List Issue :=
  match f.patch with
  | some p => if p = [] then [] else codeFn f
  | none => []

/-- `analyzeIssues`, in source order, with the per-file code inspection
abstracted as `codeFn`. -/
def analyzeIssues (codeFn : FileChange → List Issue) (prData : PullRequestData)
    (files : List FileChange) (commits : List CommitRec) : List Issue :=
  (if 20 < prData.changed_files then [largeFilesIssue prData.changed_files] else [])
    ++ (if 1000 < prData.additions + prData.deletions
        then [largeLinesIssue (prData.additions + prData.deletions)] else [])
    ++ (commits.map commitIssues).flatten
    ++ (if hasCodeFiles files && !hasTestFiles files then [noTestsIssue] else [])
    ++ (files.map (perFileIssues codeFn)).flatten
    ++ (if prData.title = [] ∨ prData.title.length < 10 then [shortTitleIssue] else [])
    ++ (if prData.body = [] ∨ prData.body.length < 20 then [lackingDescIssue] else [])

def testsIncludedPositive : Str := str "Tests included. Finally, someone who gets it."

/-- `analyzePositives`, in source order. -/
def analyzePositives (prData : PullRequestData) (files : List FileChange)
    (commits : List CommitRec) : List Str :=
  (if prData.changed_files ≤ 5 ∧ prData.additions + prData.deletions ≤ 200
   then [str "Reasonably sized PR. Good."] else [])
    ++ (if files.any (fun f => containsSub (str "test") f.filename
          || containsSub (str "spec") f.filename)
        then [testsIncludedPositive] else [])
    ++ (if files.any (fun f => (str ".md").isSuffixOf f.filename
          || containsSub (str "doc") f.filename)
        then [str "Documentation updated. Rare sight these days."] else [])
    ++ (if 0 < (commits.filter (fun c => decide (20 ≤ c.message.length)
          && containsSub (str ":") c.message)).length
        then [str "Decent commit messages. You can actually tell what was done."] else [])
    ++ (if files.any (fun f => (str ".d.ts").isSuffixOf f.filename
          || containsSub (str "interface ") (f.patch.getD [])
          || containsSub (str "type ") (f.patch.getD []))
        then [str "Type definitions. TypeScript appreciation noted."] else [])

def consoleLogIssue (f : FileChange) : Issue :=
  { type := str "minor", file := some f.filename,
    message := str "Console statements found. Clean up your debugging mess.", line := none }

def todoIssue (f : FileChange) : Issue :=
  { type := str "minor", file := some f.filename,
    message := str "TODO/FIXME comments. Either fix it now or create an issue.", line := none }

def securityIssue (f : FileChange) : Issue :=
  { type := str "critical", file := some f.filename,
    message := str "Potential security vulnerability detected.", line := none }

/-- `analyzeCodeWithRules`: the deterministic per-file fallback scan. -/
def analyzeCodeWithRules (f : FileChange) : List Issue :=
  let patch := f.patch.getD []
  (if containsSub (str "console.log") patch then [consoleLogIssue f] else [])
    ++ (if containsSub (str "TODO") patch || containsSub (str "FIXME") patch
        then [todoIssue f] else [])
    ++ (if containsSub (str "eval(") patch || containsSub (str "innerHTML") patch
        then [securityIssue f] else [])

/-- One entry of the JSON array parsed out of the LLM response; fields may
be absent, and nothing else about them is validated. -/
structure RawAIIssue where
  type : Option Str
  message : Option Str
  line : Option Int
deriving DecidableEq, Repr

/-- The `aiIssues.map(...)` conversion in `analyzeCodeWithAI`: `issue.type ||
'minor'` and `issue.message || 'Code issue detected'` replace only falsy
(absent or empty) fields; any other string passes through unchecked. -/
def convertAIIssue (filename : Str) (raw : RawAIIssue) : Issue :=
  { type := match raw.type with
      | none => str "minor"
      | some t => if t = [] then str "minor" else t,
    file := some filename,
    message := match raw.message with
      | none => str "Code issue detected"
      | some m => if m = [] then str "Code issue detected" else m,
    line := raw.line }

/-- Result of `analyzeCodeWithAI` once the response was parsed into entries. -/
def analyzeCodeWithAIParsed (filename : Str) (parsed : List RawAIIssue) : List Issue :=
  parsed.map (convertAIIssue filename)

/-- `analyzeCodeChanges`: AI result if non-empty, else rule-based fallback. -/
def analyzeCodeChanges (aiFn : FileChange → List Issue) (f : FileChange) : List Issue :=
  let aiIssues := aiFn f
  if 0 < aiIssues.length then aiIssues else analyzeCodeWithRules f

/-!  ## GitHub client (`github-client.ts`)  -/

structure CommentRec where
  id : Nat
  body : Str
  userLogin : Str
deriving DecidableEq, Repr

/-- `hasAlreadyCommented`: a failed comments fetch is swallowed and reported
as `false`; otherwise scan for the bot name in the commenter login or the
hidden marker in a comment body. -/
def hasAlreadyCommented (botName : Str) (fetched : Except Unit (List CommentRec)) : Bool :=
  match fetched with
  | .error _ => false
  | .ok comments =>
      comments.any (fun c => containsSub botName c.userLogin || containsSub marker c.body)

/-- The raw host response consumed by `getPullRequest`, nullable fields as
`Option`. -/
structure RawPRResponse where
  number : Nat
  title : Str
  body : Option Str
  userLogin : Option Str
  headSha : Str
  headRef : Str
  baseSha : Str
  baseRef : Str
  additions : Option Int
  deletions : Option Int
  changed_files : Option Int
  commits : Option Int
  mergeable : Option Bool
  draft : Option Bool
deriving DecidableEq, Repr

/-- JS `x || 0` on a nullable number. -/
def orZero (o : Option Int) : Int :=
  match o with
  | none => 0
  | some v => if v = 0 then 0 else v

/-- JS `x || d` on a nullable string. -/
def orStr (d : Str) (o : Option Str) : Str :=
  match o with
  | none => d
  | some s => if s = [] then d else s

/-- The normalization in `getPullRequest`. -/
def getPullRequest (raw : RawPRResponse) : PullRequestData :=
  { number := raw.number,
    title := raw.title,
    body := orStr [] raw.body,
    userLogin := orStr (str "unknown") raw.userLogin,
    headSha := raw.headSha, headRef := raw.headRef,
    baseSha := raw.baseSha, baseRef := raw.baseRef,
    additions := orZero raw.additions,
    deletions := orZero raw.deletions,
    changed_files := orZero raw.changed_files,
    commits := orZero raw.commits,
    mergeable := raw.mergeable,
    draft := raw.draft.getD false }

/-!  ## Webhook handler (`webhook-handler.ts`)  -/

structure PRUser where
  login : Str
  type : Str
deriving DecidableEq, Repr

structure WebhookPR where
  number : Nat
  state : Str
  draft : Bool
  user : PRUser
deriving DecidableEq, Repr

structure WebhookRepo where
  name : Str
  ownerLogin : Str
deriving DecidableEq, Repr

structure WebhookPayload where
  action : Str
  pull_request : Option WebhookPR
  repository : Option WebhookRepo
deriving DecidableEq, Repr

/-- Whether `handlePullRequestEvent` reaches `reviewPullRequest` (review,
i.e. a comment gets posted) or returns early (skip). -/
inductive GateResult
  | skip
  | review
deriving DecidableEq, Repr

def relevantActions : List Str := [str "opened", str "ready_for_review", str "synchronize"]

/-- The eligibility gate of `handlePullRequestEvent`, with the external
comments lookup supplied as `fetched`. -/
def handlePullRequestEvent (botName : Str) (payload : WebhookPayload)
    (fetched : Except Unit (List CommentRec)) : GateResult :=
  match payload.pull_request, payload.repository with
  | some pr, some _ =>
      if pr.state = str "closed" then .skip
      else if pr.user.type = str "Bot" || containsSub (str "bot") pr.user.login then .skip
      else if !(relevantActions.contains payload.action) then .skip
      else if pr.draft && !(payload.action == str "ready_for_review") then .skip
      else if hasAlreadyCommented botName fetched && !(payload.action == str "synchronize")
        then .skip
      else .review
  | _, _ => .skip

/-- `crypto.timingSafeEqual` on the two buffers: `none` models the exception
raised when the lengths differ (caught by the surrounding handler as a 500),
otherwise constant-time equality. -/
def timingSafeEqualRes (a b : Str) : Option Bool :=
  if a.length = b.length then some (a = b) else none

/-- `verifySignature`: note that the digest is computed over
`JSON.stringify(req.body)` — the re-serialization of the parsed body — which
is the `stringifiedBody` argument here, not the raw request bytes. -/
def verifySignature (hmacHex : Str → Str → Str) (secret : Option Str)
    (signature : Option Str) (stringifiedBody : Str) : Option Bool :=
  match signature, secret with
  | some sig, some sec =>
      if sig = [] ∨ sec = [] then some false
      else timingSafeEqualRes sig (str "sha256=" ++ hmacHex sec stringifiedBody)
  | _, _ => some false

inductive WebhookResponse
  | unauthorized
  | accepted
  | serverError
deriving DecidableEq, Repr

/-- The authentication outcome of `handleWebhook`: 401 when configured
verification returns false, 500 when `timingSafeEqual` throws, immediate 200
otherwise. -/
def handleWebhookAuth (hmacHex : Str → Str → Str) (webhookSecret : Option Str)
    (signature : Option Str) (stringifiedBody : Str) : WebhookResponse :=
  match webhookSecret with
  | none => .accepted
  | some sec =>
      if sec = [] then .accepted
      else
        match verifySignature hmacHex (some sec) signature stringifiedBody with
        | some true => .accepted
        | some false => .unauthorized
        | none => .serverError

/-!  ## Spec-side definitions, used to state the claims  -/

/-- The opening-line bucket cascade as the spec words it. -/
def specOpeningPool (a : PRAnalysis) : List Str :=
  if 1 ≤ countCritical a.issues then openingsCritical
  else if 2 < countMajor a.issues then openingsMajor
  else if a.issues.length < a.positives.length then openingsPositive
  else openingsNeutral

/-- The closing-line threshold cascade as the spec words it. -/
def specClosingPool (a : PRAnalysis) : List Str :=
  if 3 < countMajor a.issues then closingsNeedsWork
  else if a.issues.length = 0 ∧ 0 < a.positives.length then closingsShipIt
  else if a.issues.length ≤ 2 then closingsMinorFixes
  else closingsSeveral

/-- "Test/spec naming" as the spec words it. -/
def matchesTestNaming (filename : Str) : Bool :=
  containsSub (str "test") filename || containsSub (str "spec") filename ||
  (str ".test.ts").isSuffixOf filename || (str ".spec.ts").isSuffixOf filename

/-- No occurrence of the character opening the hidden marker. -/
def noLtChar (s : Str) : Bool := s.all (fun c => !(c = '<'))

def cleanIssue (i : Issue) : Bool :=
  noLtChar i.message && (match i.file with | some f => noLtChar f | none => true)

/-- All strings of an Analysis that the template renders are free of the
marker-opening character. -/
def cleanAnalysis (a : PRAnalysis) : Bool :=
  a.positives.all noLtChar && a.concerns.all noLtChar && a.issues.all cleanIssue

def dummyPR : PullRequestData :=
  { number := 1, title := [], body := [], userLogin := [],
    headSha := [], headRef := [], baseSha := [], baseRef := [],
    additions := 1, deletions := 2, changed_files := 3, commits := 1,
    mergeable := none, draft := false }

def analysisShipIt : PRAnalysis :=
  { prData := dummyPR, files := [], commits := [],
    summary := { totalChanges := 3, linesAdded := 1, linesDeleted := 2,
                 filesChanged := 3, commits := 1, isDraft := false, isMergeable := none },
    issues := [], positives := [str "Reasonably sized PR. Good."], concerns := [] }

/-!  ## Witness fixtures  -/

def prUserAlice : PRUser := { login := str "alice", type := str "User" }

def repoEx : WebhookRepo := { name := str "widgets", ownerLogin := str "octo" }

def prOpen : WebhookPR := { number := 1, state := str "open", draft := false, user := prUserAlice }

def payloadOpened : WebhookPayload :=
  { action := str "opened", pull_request := some prOpen, repository := some repoEx }

def payloadSync : WebhookPayload :=
  { action := str "synchronize", pull_request := some prOpen, repository := some repoEx }

def prBot : WebhookPR :=
  { number := 2, state := str "open", draft := false,
    user := { login := str "my-bot-42", type := str "User" } }

def payloadBot : WebhookPayload :=
  { action := str "opened", pull_request := some prBot, repository := some repoEx }

def markerComment : CommentRec := { id := 11, body := marker, userLogin := str "someone" }

def fileUtils : FileChange :=
  { filename := str "utils.ts", status := str "modified",
    additions := 3, deletions := 1, changes := 4, patch := none }

def fileUtilsTest : FileChange :=
  { filename := str "utils.test.ts", status := str "added",
    additions := 5, deletions := 0, changes := 5, patch := none }

def rawAllNil : RawPRResponse :=
  { number := 7, title := str "Add a carefully described feature",
    body := none, userLogin := none,
    headSha := str "h", headRef := str "feat", baseSha := str "b", baseRef := str "main",
    additions := none, deletions := none, changed_files := none, commits := none,
    mergeable := none, draft := none }

def hexA : Str := List.replicate 64 'a'

def hexB : Str := List.replicate 64 'b'

/-- A stand-in digest function for the signature witness: fixed 64-char
output, different on the two bodies of interest. -/
def hmacToy : Str → Str → Str :=
  fun _ m => if m = str "\x7b\"a\": 1\x7d" then hexA else hexB

/-!  ## String lemma toolkit  -/

theorem containsSub_nil_pat (s : Str) : containsSub [] s = true := by
  cases s <;> simp [containsSub, List.isPrefixOf, List.isEmpty]

theorem isPrefixOf_append_self (p t : Str) : p.isPrefixOf (p ++ t) = true :=
  List.isPrefixOf_iff_prefix.mpr (List.prefix_append p t)

theorem countOcc_pos_of_head {p s : Str} (hp : p ≠ []) (h : p.isPrefixOf s = true) :
    1 ≤ countOcc p s := by
  cases s with
  | nil =>
      cases p with
      | nil => exact absurd rfl hp
      | cons c l => simp [List.isPrefixOf] at h
  | cons c rest => simp [countOcc, h]

theorem countOcc_pos_iff {p : Str} (hp : p ≠ []) (s : Str) :
    0 < countOcc p s ↔ containsSub p s = true := by
  induction s with
  | nil =>
      cases p with
      | nil => exact absurd rfl hp
      | cons c l => simp [countOcc, containsSub, List.isEmpty]
  | cons c rest ih =>
      cases h : p.isPrefixOf (c :: rest) <;> simp [countOcc, containsSub, h, ih]

theorem ne_nil_of_countOcc_pos {p s : Str} (h : 0 < countOcc p s) : s ≠ [] := by
  intro he
  subst he
  simp [countOcc] at h

theorem countChar_append (c : Char) (a b : Str) :
    countChar c (a ++ b) = countChar c a + countChar c b := by
  induction a with
  | nil => simp [countChar]
  | cons d rest ih => simp [countChar, ih]; omega

theorem countChar_eq_zero_of_all {c : Char} {s : Str}
    (h : s.all (fun d => !(d = c)) = true) : countChar c s = 0 := by
  induction s with
  | nil => rfl
  | cons d rest ih =>
      simp only [List.all_cons, Bool.and_eq_true, Bool.not_eq_true'] at h
      have hd : ¬ (d = c) := by
        intro he
        rw [he] at h
        simp at h
      simp [countChar, hd, ih h.2]

theorem countChar_flatten_zero (c : Char) (l : List Str)
    (h : ∀ x ∈ l, countChar c x = 0) : countChar c l.flatten = 0 := by
  induction l with
  | nil => rfl
  | cons x rest ih =>
      rw [List.flatten_cons, countChar_append, h x (by simp),
        ih (fun y hy => h y (List.mem_cons_of_mem _ hy))]

theorem countOcc_le_countChar (c : Char) (p s : Str) :
    countOcc (c :: p) s ≤ countChar c s := by
  induction s with
  | nil => simp [countOcc, countChar]
  | cons d rest ih =>
      cases h : (c :: p).isPrefixOf (d :: rest) with
      | false =>
          have h1 : countOcc (c :: p) (d :: rest) = countOcc (c :: p) rest := by
            simp [countOcc, h]
          have h2 : countChar c rest ≤ countChar c (d :: rest) := by
            simp only [countChar]
            split <;> omega
          omega
      | true =>
          have hd : d = c := by
            simp only [List.isPrefixOf, Bool.and_eq_true, beq_iff_eq] at h
            exact h.1.symm
          have h1 : countOcc (c :: p) (d :: rest) = 1 + countOcc (c :: p) rest := by
            simp [countOcc, h]
          have h2 : countChar c (d :: rest) = 1 + countChar c rest := by
            simp [countChar, hd]
          omega

theorem isPrefixOf_append_of_length_le {p s : Str} (b : Str) (h : p.length ≤ s.length) :
    p.isPrefixOf (s ++ b) = p.isPrefixOf s := by
  induction p generalizing s with
  | nil => simp [List.isPrefixOf]
  | cons c p2 ih =>
      cases s with
      | nil => simp at h
      | cons d s2 =>
          simp only [List.cons_append, List.isPrefixOf, List.append_eq]
          rw [ih (Nat.le_of_succ_le_succ h)]

theorem notPrefixOf_of_length_gt {p s : Str} (h : s.length < p.length) :
    p.isPrefixOf s = false := by
  cases hc : p.isPrefixOf s with
  | false => rfl
  | true =>
      have := (List.isPrefixOf_iff_prefix.mp hc).length_le
      omega

theorem countOcc_append_left_clean (p : Str) (a b : Str)
    (h : ∀ j, j < p.length → 1 ≤ j → ¬ (p.take j) <:+ a) :
    countOcc p (a ++ b) = countOcc p a + countOcc p b := by
  induction a with
  | nil => simp [countOcc]
  | cons x a2 ih =>
      have hsub : ∀ j, j < p.length → 1 ≤ j → ¬ (p.take j) <:+ a2 := by
        intro j h1 h2 hs
        exact h j h1 h2 (hs.trans (List.suffix_cons x a2))
      have hh : p.isPrefixOf ((x :: a2) ++ b) = p.isPrefixOf (x :: a2) := by
        by_cases hl : p.length ≤ (x :: a2).length
        · exact isPrefixOf_append_of_length_le b hl
        · push_neg at hl
          rw [notPrefixOf_of_length_gt hl]
          cases hc : p.isPrefixOf ((x :: a2) ++ b) with
          | false => rfl
          | true =>
              exfalso
              have hpre : (x :: a2) <+: p :=
                List.prefix_of_prefix_length_le (List.prefix_append _ _)
                  (List.isPrefixOf_iff_prefix.mp hc) (le_of_lt hl)
              have htake : (x :: a2) = p.take (x :: a2).length :=
                List.prefix_iff_eq_take.mp hpre
              exact h (x :: a2).length hl (by simp)
                (htake ▸ List.suffix_refl (x :: a2))
      have hgoal : countOcc p ((x :: a2) ++ b)
          = (if p.isPrefixOf ((x :: a2) ++ b) then 1 else 0) + countOcc p (a2 ++ b) := by
        rfl
      rw [hgoal, hh, ih hsub]
      simp only [countOcc]
      split <;> omega

theorem countOcc_append_right_clean (p : Str) (a b : Str)
    (h : ∀ j, j < p.length → 1 ≤ j → ¬ (p.drop j) <+: b) :
    countOcc p (a ++ b) = countOcc p a + countOcc p b := by
  induction a with
  | nil => simp [countOcc]
  | cons x a2 ih =>
      have hh : p.isPrefixOf ((x :: a2) ++ b) = p.isPrefixOf (x :: a2) := by
        by_cases hl : p.length ≤ (x :: a2).length
        · exact isPrefixOf_append_of_length_le b hl
        · push_neg at hl
          rw [notPrefixOf_of_length_gt hl]
          cases hc : p.isPrefixOf ((x :: a2) ++ b) with
          | false => rfl
          | true =>
              exfalso
              have hpre : (x :: a2) <+: p :=
                List.prefix_of_prefix_length_le (List.prefix_append _ _)
                  (List.isPrefixOf_iff_prefix.mp hc) (le_of_lt hl)
              have htake : (x :: a2) = p.take (x :: a2).length :=
                List.prefix_iff_eq_take.mp hpre
              have hsplit : p.take (x :: a2).length ++ p.drop (x :: a2).length = p :=
                List.take_append_drop _ p
              have hp2 : p.take (x :: a2).length ++ p.drop (x :: a2).length
                  <+: p.take (x :: a2).length ++ b := by
                rw [hsplit, ← htake]
                exact List.isPrefixOf_iff_prefix.mp hc
              have hdrop : p.drop (x :: a2).length <+: b :=
                (List.prefix_append_right_inj _).mp hp2
              exact h (x :: a2).length hl (by simp) hdrop
      have hgoal : countOcc p ((x :: a2) ++ b)
          = (if p.isPrefixOf ((x :: a2) ++ b) then 1 else 0) + countOcc p (a2 ++ b) := by
        rfl
      rw [hgoal, hh, ih]
      simp only [countOcc]
      split <;> omega

theorem containsSub_iff_substring (p s : Str) : containsSub p s = true ↔ p <:+: s := by
  induction s with
  | nil => simp [containsSub, List.infix_nil, List.isEmpty_iff]
  | cons c rest ih =>
      simp [containsSub, List.infix_cons_iff, List.isPrefixOf_iff_prefix, ih]

theorem containsSub_append_right {p b : Str} (a : Str) (h : containsSub p b = true) :
    containsSub p (a ++ b) = true := by
  rw [containsSub_iff_substring] at h ⊢
  exact h.trans ((List.suffix_append a b).isInfix)

theorem containsSub_of_isPrefixOf {p s : Str} (h : p.isPrefixOf s = true) :
    containsSub p s = true := by
  rw [containsSub_iff_substring]
  exact (List.isPrefixOf_iff_prefix.mp h).isInfix

theorem countChar_getD_zero (c : Char) (l : List Str) (i : Nat)
    (h : ∀ x ∈ l, countChar c x = 0) : countChar c (l.getD i []) = 0 := by
  rw [List.getD_eq_getElem?_getD]
  cases hc : l[i]? with
  | none => simp [hc, countChar]
  | some x =>
      simp only [hc, Option.getD_some]
      exact h x (List.getElem?_mem hc)

theorem headD_append_left {a : Str} (b : Str) (d : Char) (h : a ≠ []) :
    (a ++ b).headD d = a.headD d := by
  cases a with
  | nil => exact absurd rfl h
  | cons x l => rfl

theorem append_ne_nil_left {a : Str} (b : Str) (h : a ≠ []) : a ++ b ≠ [] := by
  cases a with
  | nil => exact absurd rfl h
  | cons x l => simp

theorem natToStrGo_all {p : Char → Bool} (hdig : ∀ d, d < 10 → p (digitChar d) = true) :
    ∀ fuel n acc, acc.all p = true → (natToStrGo fuel n acc).all p = true := by
  intro fuel
  induction fuel with
  | zero => intro n acc h; exact h
  | succ f ih =>
      intro n acc h
      rw [natToStrGo]
      split
      · simp only [List.all_cons, Bool.and_eq_true]
        exact ⟨hdig n (by omega), h⟩
      · exact ih _ _ (by
          simp only [List.all_cons, Bool.and_eq_true]
          exact ⟨hdig (n % 10) (Nat.mod_lt _ (by omega)), h⟩)

theorem natToStrGo_ne_nil : ∀ fuel n acc, (fuel ≠ 0 ∨ acc ≠ ([] : Str)) →
    natToStrGo fuel n acc ≠ [] := by
  intro fuel
  induction fuel with
  | zero =>
      intro n acc h
      rcases h with h | h
      · exact absurd rfl h
      · exact h
  | succ f ih =>
      intro n acc _
      rw [natToStrGo]
      split
      · simp
      · exact ih _ _ (Or.inr (by simp))

theorem natToStr_ne_nil (n : Nat) : natToStr n ≠ [] :=
  natToStrGo_ne_nil _ _ _ (Or.inl (by omega))

theorem natToStr_all {p : Char → Bool} (hdig : ∀ d, d < 10 → p (digitChar d) = true)
    (n : Nat) : (natToStr n).all p = true :=
  natToStrGo_all hdig _ _ _ (by simp)

theorem intToStr_all {p : Char → Bool} (hdig : ∀ d, d < 10 → p (digitChar d) = true)
    (hneg : p (Char.ofNat 45) = true) (i : Int) : (intToStr i).all p = true := by
  rw [intToStr]
  split
  · simp only [List.all_cons, Bool.and_eq_true]
    exact ⟨hneg, natToStr_all hdig _⟩
  · exact natToStr_all hdig _

theorem countChar_lt_intToStr (i : Int) : countChar '<' (intToStr i) = 0 :=
  countChar_eq_zero_of_all (intToStr_all (by decide) (by decide) i)

theorem all_headD {p : Char → Bool} {s : Str} (h : s.all p = true) (hne : s ≠ []) (d : Char) :
    p (s.headD d) = true := by
  cases s with
  | nil => exact absurd rfl hne
  | cons x l =>
      simp only [List.all_cons, Bool.and_eq_true] at h
      exact h.1

theorem intToStr_ne_nil (i : Int) : intToStr i ≠ [] := by
  rw [intToStr]
  split
  · simp
  · exact natToStr_ne_nil _

theorem intToStr_headD_ne_upper (i : Int) (c : Char) (hc : 65 ≤ c.toNat) :
    (intToStr i).headD ' ' ≠ c := by
  have hall : (intToStr i).all (fun d => decide (d.toNat < 60)) = true :=
    intToStr_all (by decide) (by decide) i
  have hh := all_headD hall (intToStr_ne_nil i) ' '
  simp only [decide_eq_true_eq] at hh
  intro he
  rw [he] at hh
  omega

/-!  ## Character counting over the template  -/

theorem countChar_lt_getRandomOpening (r : Nat) (t : Str) :
    countChar '<' (getRandomOpening r t) = 0 := by
  simp only [getRandomOpening]
  split_ifs <;> exact countChar_getD_zero _ _ _ (by decide)

theorem countChar_lt_openingFor (a : PRAnalysis) (r1 : Nat) :
    countChar '<' (openingFor a r1) = 0 := by
  rw [openingFor]
  split_ifs <;> exact countChar_lt_getRandomOpening _ _

theorem countChar_lt_getRandomClosing (r x y z : Nat) :
    countChar '<' (getRandomClosing r x y z) = 0 := by
  simp only [getRandomClosing]
  split_ifs <;> exact countChar_getD_zero _ _ _ (by decide)

theorem countChar_lt_closingFor (a : PRAnalysis) (r2 : Nat) :
    countChar '<' (closingFor a r2) = 0 := by
  rw [closingFor]
  exact countChar_lt_getRandomClosing _ _ _ _

theorem countChar_lt_statsLine (s : Summary) : countChar '<' (statsLine s) = 0 := by
  rw [statsLine]
  simp only [countChar_append, countChar_lt_intToStr]
  decide

theorem countChar_lt_positivesBlock (ps : List Str) (h : ∀ p ∈ ps, noLtChar p = true) :
    countChar '<' (positivesBlock ps) = 0 := by
  rw [positivesBlock]
  split
  · simp only [countChar_append]
    rw [countChar_flatten_zero]
    · decide
    · intro x hx
      obtain ⟨p, hp, rfl⟩ := List.mem_map.mp hx
      simp only [countChar_append]
      rw [countChar_eq_zero_of_all (h p hp)]
      decide
  · rfl

theorem countChar_lt_concernsBlock (cs : List Str) (h : ∀ c ∈ cs, noLtChar c = true) :
    countChar '<' (concernsBlock cs) = 0 := by
  rw [concernsBlock]
  split
  · simp only [countChar_append]
    rw [countChar_flatten_zero]
    · decide
    · intro x hx
      obtain ⟨c, hc, rfl⟩ := List.mem_map.mp hx
      simp only [countChar_append]
      rw [countChar_eq_zero_of_all (h c hc)]
      decide
  · rfl

theorem countChar_lt_issueLine (i : Issue) (h : cleanIssue i = true) :
    countChar '<' (issueLine i) = 0 := by
  have hb := h
  rw [cleanIssue, Bool.and_eq_true] at hb
  obtain ⟨h1, h2⟩ := hb
  cases hf : i.file with
  | none =>
      rw [issueLine, hf]
      simp only [countChar_append]
      rw [countChar_eq_zero_of_all h1]
      decide
  | some f =>
      rw [hf] at h2
      rw [issueLine, hf]
      simp only [countChar_append]
      rw [countChar_eq_zero_of_all h1,
        countChar_eq_zero_of_all (show f.all (fun d => !(d = '<')) = true from h2)]
      decide

theorem countChar_lt_issueGroup (hd : Str) (hhd : countChar '<' hd = 0) (l : List Issue)
    (h : ∀ i ∈ l, cleanIssue i = true) : countChar '<' (issueGroup hd l) = 0 := by
  rw [issueGroup]
  split
  · rw [countChar_append, hhd, countChar_flatten_zero]
    · intro x hx
      obtain ⟨i, hi, rfl⟩ := List.mem_map.mp hx
      exact countChar_lt_issueLine i (h i hi)
  · rfl

theorem countChar_lt_issuesBlock (issues : List Issue)
    (h : ∀ i ∈ issues, cleanIssue i = true) :
    countChar '<' (issuesBlock issues) = 0 := by
  rw [issuesBlock]
  simp only [countChar_append]
  rw [countChar_lt_issueGroup _ (by decide) _ (fun i hi => h i (List.mem_filter.mp hi).1),
      countChar_lt_issueGroup _ (by decide) _ (fun i hi => h i (List.mem_filter.mp hi).1),
      countChar_lt_issueGroup _ (by decide) _ (fun i hi => h i (List.mem_filter.mp hi).1),
      countChar_lt_issueGroup _ (by decide) _ (fun i hi => h i (List.mem_filter.mp hi).1)]
  decide

theorem countChar_lt_template (a : PRAnalysis) (r1 r2 : Nat) (h : cleanAnalysis a = true) :
    countChar '<' (generateTemplateComment a r1 r2) = 1 := by
  rw [cleanAnalysis, Bool.and_eq_true, Bool.and_eq_true] at h
  obtain ⟨⟨hp, hc⟩, hi⟩ := h
  rw [List.all_eq_true] at hp hc hi
  rw [generateTemplateComment]
  simp only [countChar_append]
  rw [countChar_lt_openingFor, countChar_lt_statsLine,
      countChar_lt_positivesBlock _ hp, countChar_lt_closingFor,
      countChar_lt_concernsBlock _ hc]
  have hib : countChar '<' (if a.issues.length > 0 then issuesBlock a.issues else []) = 0 := by
    split
    · exact countChar_lt_issuesBlock _ hi
    · rfl
  rw [hib]
  decide

/-!  ## Marker counting (claim C1)  -/

theorem template_marker_isPrefixOf (a : PRAnalysis) (r1 r2 : Nat) :
    marker.isPrefixOf (generateTemplateComment a r1 r2) = true := by
  rw [generateTemplateComment]
  exact isPrefixOf_append_self _ _

theorem countOcc_marker_template_ge (a : PRAnalysis) (r1 r2 : Nat) :
    1 ≤ countOcc marker (generateTemplateComment a r1 r2) :=
  countOcc_pos_of_head (by decide) (template_marker_isPrefixOf a r1 r2)

theorem countOcc_marker_template_eq (a : PRAnalysis) (r1 r2 : Nat)
    (h : cleanAnalysis a = true) :
    countOcc marker (generateTemplateComment a r1 r2) = 1 := by
  have hle : countOcc marker (generateTemplateComment a r1 r2)
      ≤ countChar '<' (generateTemplateComment a r1 r2) := by
    have hm : marker = '<' :: str "!-- linus-pr-bot -->" := by decide
    rw [hm]
    exact countOcc_le_countChar _ _ _
  have h1 := countChar_lt_template a r1 r2 h
  have h2 := countOcc_marker_template_ge a r1 r2
  omega

theorem addBotSignature_marker_count (t : Str) :
    countOcc marker (addBotSignature t) = max 1 (countOcc marker t) := by
  simp only [addBotSignature]
  by_cases h : containsSub marker t = true
  · have h1 : 1 ≤ countOcc marker t := (countOcc_pos_iff (by decide) t).mpr h
    rw [if_pos h]
    by_cases h2 : containsSub (str "- Linus") t = true
    · rw [if_pos h2, Nat.max_eq_right h1]
    · rw [if_neg h2, countOcc_append_right_clean marker t _ (by decide)]
      have hz : countOcc marker (str "\n\n*- Linus (Bot)*") = 0 := by decide
      rw [hz, Nat.max_eq_right h1]
      omega
  · have h0 : countOcc marker t = 0 := by
      by_contra hne
      exact h ((countOcc_pos_iff (by decide) t).mp (Nat.pos_of_ne_zero hne))
    rw [if_neg h]
    have hc1 : countOcc marker (marker ++ str "\n" ++ t) = 1 := by
      rw [countOcc_append_left_clean marker (marker ++ str "\n") t (by decide), h0]
      have e1 : countOcc marker (marker ++ str "\n") = 1 := by decide
      omega
    by_cases h2 : containsSub (str "- Linus") (marker ++ str "\n" ++ t) = true
    · rw [if_pos h2, h0, hc1]
      decide
    · rw [if_neg h2, h0, countOcc_append_right_clean marker _ _ (by decide)]
      have hz : countOcc marker (str "\n\n*- Linus (Bot)*") = 0 := by decide
      rw [hc1, hz]
      decide

/-- C1 (amended): on both generation paths the produced comment is non-empty
and contains the hidden marker at least once; on the AI path the number of
marker occurrences is exactly `max 1 (occurrences in the raw LLM text)` (so
exactly one unless the LLM text itself already contained the marker more
than once), and on the template path it is exactly one whenever no rendered
string of the Analysis contains the marker-opening character. -/
theorem C1_marker_occurrences :
    (∀ content : Option Str,
        countOcc marker (generateAICommentOut content)
            = max 1 (countOcc marker (content.getD [])) ∧
        generateAICommentOut content ≠ []) ∧
    (∀ (a : PRAnalysis) (r1 r2 : Nat),
        1 ≤ countOcc marker (generateTemplateComment a r1 r2) ∧
        generateTemplateComment a r1 r2 ≠ [] ∧
        (cleanAnalysis a = true →
          countOcc marker (generateTemplateComment a r1 r2) = 1)) := by
  constructor
  · intro content
    have hm : countOcc marker (generateAICommentOut content)
        = max 1 (countOcc marker (content.getD [])) :=
      addBotSignature_marker_count (content.getD [])
    refine ⟨hm, ne_nil_of_countOcc_pos (p := marker) ?_⟩
    rw [hm]
    have := Nat.le_max_left 1 (countOcc marker (content.getD []))
    omega
  · intro a r1 r2
    exact ⟨countOcc_marker_template_ge a r1 r2,
      ne_nil_of_countOcc_pos (countOcc_marker_template_ge a r1 r2),
      countOcc_marker_template_eq a r1 r2⟩

/-- C1 witness: a concrete clean Analysis whose template comment carries the
marker exactly once. -/
theorem C1_marker_occurrences_witness :
    cleanAnalysis analysisShipIt = true ∧
    countOcc marker (generateTemplateComment analysisShipIt 0 0) = 1 :=
  ⟨by decide, (C1_marker_occurrences.2 analysisShipIt 0 0).2.2 (by decide)⟩

/-- C1 counterexample: an LLM text that already carries the marker twice
passes through `addBotSignature` with both occurrences kept, so the claimed
"exactly once on the AI path" fails. -/
theorem C1_counterexample :
    ¬ countOcc marker (generateAICommentOut (some (marker ++ marker))) = 1 := by
  decide

/-!  ## Eligibility gate claims  -/

theorem hasAlreadyCommented_of_marker (botName : Str) (comments : List CommentRec)
    (h : ∃ c ∈ comments, containsSub marker c.body = true) :
    hasAlreadyCommented botName (Except.ok comments) = true := by
  rw [hasAlreadyCommented]
  obtain ⟨c, hc, hb⟩ := h
  rw [List.any_eq_true]
  exact ⟨c, hc, by rw [hb]; simp⟩

/-- C4: when the comments lookup finds a marker-bearing body, every eligible
event whose action is not "synchronize" is skipped, while a "synchronize"
event that passes the other gates is still reviewed. -/
theorem C4_dedup_gate (botName : Str) (payload : WebhookPayload) (pr : WebhookPR)
    (repo : WebhookRepo) (comments : List CommentRec)
    (h1 : payload.pull_request = some pr) (h2 : payload.repository = some repo)
    (hmark : ∃ c ∈ comments, containsSub marker c.body = true) :
    (payload.action ≠ str "synchronize" →
      handlePullRequestEvent botName payload (Except.ok comments) = GateResult.skip) ∧
    (payload.action = str "synchronize" → pr.state ≠ str "closed" →
      pr.user.type ≠ str "Bot" → containsSub (str "bot") pr.user.login = false →
      pr.draft = false →
      handlePullRequestEvent botName payload (Except.ok comments) = GateResult.review) := by
  have hac : hasAlreadyCommented botName (Except.ok comments) = true :=
    hasAlreadyCommented_of_marker botName comments hmark
  constructor
  · intro hsync
    have hbeq : (payload.action == str "synchronize") = false := by
      simp only [beq_eq_false_iff_ne, ne_eq]
      exact hsync
    simp only [handlePullRequestEvent, h1, h2]
    split_ifs with g1 g2 g3 g4 g5 <;> try rfl
    exfalso
    apply g5
    rw [hac, hbeq]
    rfl
  · intro hsync hclosed htype hlogin hdraft
    simp only [handlePullRequestEvent, h1, h2]
    rw [hsync]
    have hbot : (decide (pr.user.type = str "Bot")
        || containsSub (str "bot") pr.user.login) = false := by
      rw [Bool.or_eq_false_iff]
      exact ⟨decide_eq_false htype, hlogin⟩
    rw [if_neg hclosed, if_neg (by rw [hbot]; exact Bool.false_ne_true),
        if_neg (by decide), if_neg (by rw [hdraft]; decide),
        if_neg (by simp)]

/-- C8: an event whose author is typed as a bot account or whose login
contains "bot" never reaches the review call, whatever its other fields. -/
theorem C8_bot_author_rejected (botName : Str) (payload : WebhookPayload)
    (fetched : Except Unit (List CommentRec))
    (h : ∀ pr, payload.pull_request = some pr →
        pr.user.type = str "Bot" ∨ containsSub (str "bot") pr.user.login = true) :
    handlePullRequestEvent botName payload fetched = GateResult.skip := by
  cases hpr : payload.pull_request with
  | none => simp [handlePullRequestEvent, hpr]
  | some pr =>
      cases hrep : payload.repository with
      | none => simp [handlePullRequestEvent, hpr, hrep]
      | some repo =>
          have hbot : (decide (pr.user.type = str "Bot")
              || containsSub (str "bot") pr.user.login) = true := by
            rcases h pr hpr with hb | hb
            · rw [decide_eq_true hb]
              rfl
            · rw [hb]
              simp
          simp only [handlePullRequestEvent, hpr, hrep]
          by_cases hclosed : pr.state = str "closed"
          · rw [if_pos hclosed]
          · rw [if_neg hclosed, if_pos hbot]

/-- C8 witness: the author handle "my-bot-42" is rejected by substring match. -/
theorem C8_bot_author_rejected_witness :
    handlePullRequestEvent (str "linus-pr-bot") payloadBot (Except.ok []) = GateResult.skip :=
  C8_bot_author_rejected _ _ _ (fun pr hpr => by
    have h2 : some prBot = some pr := hpr
    injection h2 with h3
    rw [← h3]
    exact Or.inr (by decide))

/-- C9: a failed comments lookup is reported as "not yet commented" and an
otherwise eligible event still proceeds to review. -/
theorem C9_fetch_error_proceeds (botName : Str) (payload : WebhookPayload)
    (pr : WebhookPR) (repo : WebhookRepo)
    (h1 : payload.pull_request = some pr) (h2 : payload.repository = some repo)
    (h3 : pr.state ≠ str "closed")
    (h4 : pr.user.type ≠ str "Bot") (h5 : containsSub (str "bot") pr.user.login = false)
    (h6 : relevantActions.contains payload.action = true)
    (h7 : (pr.draft && !(payload.action == str "ready_for_review")) = false) :
    hasAlreadyCommented botName (Except.error ()) = false ∧
    handlePullRequestEvent botName payload (Except.error ()) = GateResult.review := by
  refine ⟨rfl, ?_⟩
  simp only [handlePullRequestEvent, h1, h2]
  have hbot : (decide (pr.user.type = str "Bot")
      || containsSub (str "bot") pr.user.login) = false := by
    rw [Bool.or_eq_false_iff]
    exact ⟨decide_eq_false h4, h5⟩
  rw [if_neg h3, if_neg (by rw [hbot]; exact Bool.false_ne_true),
      if_neg (by rw [h6]; simp), if_neg (by rw [h7]; simp),
      if_neg (by simp [hasAlreadyCommented])]

/-- C9 witness: concrete eligible "opened" event with a failing lookup. -/
theorem C9_fetch_error_proceeds_witness :
    hasAlreadyCommented (str "linus-pr-bot") (Except.error ()) = false ∧
    handlePullRequestEvent (str "linus-pr-bot") payloadOpened (Except.error ())
      = GateResult.review :=
  C9_fetch_error_proceeds (str "linus-pr-bot") payloadOpened prOpen repoEx rfl rfl
    (by decide) (by decide) (by decide) (by decide) (by decide)

/-- C4 witness: one marker-bearing comment; "opened" is skipped while
"synchronize" is reviewed. -/
theorem C4_dedup_gate_witness :
    handlePullRequestEvent (str "linus-pr-bot") payloadOpened
        (Except.ok [markerComment]) = GateResult.skip ∧
    handlePullRequestEvent (str "linus-pr-bot") payloadSync
        (Except.ok [markerComment]) = GateResult.review := by
  constructor
  · exact (C4_dedup_gate (str "linus-pr-bot") payloadOpened prOpen repoEx [markerComment]
      rfl rfl ⟨markerComment, by simp, by decide⟩).1 (by decide)
  · exact (C4_dedup_gate (str "linus-pr-bot") payloadSync prOpen repoEx [markerComment]
      rfl rfl ⟨markerComment, by simp, by decide⟩).2 rfl (by decide) (by decide)
      (by decide) rfl

/-- C10: `getPullRequest` turns a null body into the empty string, missing
counts into 0 (and keeps host-supplied non-negative counts non-negative),
and a missing author login into "unknown"; with a null body the analyzer
then emits the "description is lacking" issue. -/
theorem C10_normalization (raw : RawPRResponse)
    (ha : ∀ v, raw.additions = some v → 0 ≤ v)
    (hd : ∀ v, raw.deletions = some v → 0 ≤ v)
    (hf : ∀ v, raw.changed_files = some v → 0 ≤ v)
    (hm : ∀ v, raw.commits = some v → 0 ≤ v) :
    (raw.body = none → (getPullRequest raw).body = []) ∧
    (raw.additions = none → (getPullRequest raw).additions = 0) ∧
    (raw.deletions = none → (getPullRequest raw).deletions = 0) ∧
    (raw.changed_files = none → (getPullRequest raw).changed_files = 0) ∧
    (raw.commits = none → (getPullRequest raw).commits = 0) ∧
    (raw.userLogin = none → (getPullRequest raw).userLogin = str "unknown") ∧
    0 ≤ (getPullRequest raw).additions ∧
    0 ≤ (getPullRequest raw).deletions ∧
    0 ≤ (getPullRequest raw).changed_files ∧
    0 ≤ (getPullRequest raw).commits ∧
    (∀ (codeFn : FileChange → List Issue) (files : List FileChange)
        (commits : List CommitRec), raw.body = none →
      lackingDescIssue ∈ analyzeIssues codeFn (getPullRequest raw) files commits) := by
  have hz : ∀ (o : Option Int), (∀ v, o = some v → 0 ≤ v) → 0 ≤ orZero o := by
    intro o ho
    cases o with
    | none => simp [orZero]
    | some v =>
        have := ho v rfl
        rw [orZero]
        split <;> omega
  refine ⟨?_, ?_, ?_, ?_, ?_, ?_, hz _ ha, hz _ hd, hz _ hf, hz _ hm, ?_⟩
  · intro hb; simp [getPullRequest, hb, orStr]
  · intro hb; simp [getPullRequest, hb, orZero]
  · intro hb; simp [getPullRequest, hb, orZero]
  · intro hb; simp [getPullRequest, hb, orZero]
  · intro hb; simp [getPullRequest, hb, orZero]
  · intro hb; simp [getPullRequest, hb, orStr]
  · intro codeFn files commits hb
    have hbody : (getPullRequest raw).body = [] := by simp [getPullRequest, hb, orStr]
    rw [analyzeIssues]
    simp only [List.mem_append]
    right
    rw [if_pos (Or.inl hbody)]
    simp

/-- C10 witness: all-null host response. -/
theorem C10_normalization_witness :
    (getPullRequest rawAllNil).body = [] ∧
    (getPullRequest rawAllNil).additions = 0 ∧
    (getPullRequest rawAllNil).userLogin = str "unknown" ∧
    lackingDescIssue ∈ analyzeIssues (fun _ => []) (getPullRequest rawAllNil) [] [] := by
  have h := C10_normalization rawAllNil (fun v hv => nomatch hv) (fun v hv => nomatch hv)
    (fun v hv => nomatch hv) (fun v hv => nomatch hv)
  exact ⟨h.1 rfl, h.2.1 rfl, h.2.2.2.2.2.1 rfl,
    h.2.2.2.2.2.2.2.2.2.2 (fun _ => []) [] [] rfl⟩

/-!  ## LLM-boundary claims  -/

/-- C2 (code bug): an LLM entry carrying the severity string "catastrophic"
flows through the `issue.type || 'minor'` conversion unchecked and yields an
Issue whose severity is outside the four-kind enum. -/
theorem C2_out_of_enum_severity :
    (analyzeCodeWithAIParsed (str "a.ts")
        [{ type := some (str "catastrophic"), message := some (str "bad"),
           line := none }]).all
      (fun i => validSeverity i.type) = false := by
  decide

/-- C3 (code bug): `verifySignature` digests `JSON.stringify(req.body)`, not
the raw request bytes, so whenever the raw bytes differ from the
re-serialization (and the digests differ accordingly) a signature that is
the correct HMAC of the raw body is rejected with 401. -/
theorem C3_raw_body_signature_rejected (hmacHex : Str → Str → Str)
    (sec raw sBody : Str) (hsec : sec ≠ [])
    (hneq : hmacHex sec sBody ≠ hmacHex sec raw)
    (hlen : (hmacHex sec sBody).length = (hmacHex sec raw).length) :
    handleWebhookAuth hmacHex (some sec) (some (str "sha256=" ++ hmacHex sec raw)) sBody
      = WebhookResponse.unauthorized := by
  have hv : verifySignature hmacHex (some sec)
      (some (str "sha256=" ++ hmacHex sec raw)) sBody = some false := by
    simp only [verifySignature]
    rw [if_neg (show ¬ (str "sha256=" ++ hmacHex sec raw = [] ∨ sec = []) by
      intro hor
      rcases hor with hx | hx
      · exact append_ne_nil_left _ (by decide) hx
      · exact hsec hx)]
    rw [timingSafeEqualRes,
      if_pos (show (str "sha256=" ++ hmacHex sec raw).length
          = (str "sha256=" ++ hmacHex sec sBody).length by
        simp [List.length_append, hlen])]
    have hne2 : ¬ (str "sha256=" ++ hmacHex sec raw
        = str "sha256=" ++ hmacHex sec sBody) := by
      intro he
      exact hneq (List.append_cancel_left he).symm
    simp [hne2]
  simp only [handleWebhookAuth]
  rw [if_neg hsec, hv]

/-- C3 witness: raw bytes with one extra space differ from the
re-serialization; the correctly signed request is rejected. -/
theorem C3_raw_body_signature_rejected_witness :
    handleWebhookAuth hmacToy (some (str "secret"))
        (some (str "sha256=" ++ hmacToy (str "secret") (str "\x7b\"a\": 1\x7d")))
        (str "\x7b\"a\":1\x7d") = WebhookResponse.unauthorized :=
  C3_raw_body_signature_rejected hmacToy (str "secret") (str "\x7b\"a\": 1\x7d")
    (str "\x7b\"a\":1\x7d") (by decide) (by decide) (by decide)

/-!  ## Claim C5: the missing-tests rule  -/

theorem mem_ite_singleton {α : Type} {c : Prop} [Decidable c] {x y : α} :
    (x ∈ (if c then [y] else [])) ↔ (c ∧ x = y) := by
  split_ifs with h <;> simp [h]

theorem issue_ne_of_headD {i j : Issue} (h : ¬ i.message.headD ' ' = j.message.headD ' ') :
    ¬ i = j :=
  fun he => h (congrArg (fun k => k.message.headD ' ') he)

theorem headD_msg_largeFiles (n : Int) : (largeFilesIssue n).message.headD ' ' = 'T' := by
  show ((str "This PR touches " ++ intToStr n
      ++ str " files. That's a lot. Did you consider breaking this down?")).headD ' ' = 'T'
  rw [headD_append_left _ _ (append_ne_nil_left _ (by decide)),
      headD_append_left _ _ (by decide)]
  decide

theorem headD_msg_largeLines (n : Int) :
    ¬ (largeLinesIssue n).message.headD ' ' = 'N' := by
  show ¬ ((intToStr n ++ str " line changes. This is getting unwieldy.")).headD ' ' = 'N'
  rw [headD_append_left _ _ (intToStr_ne_nil n)]
  exact intToStr_headD_ne_upper n 'N' (by decide)

theorem headD_msg_shortCommit (c : CommitRec) :
    (shortCommitIssue c).message.headD ' ' = 'C' := by
  show ((str "Commit message \"" ++ c.message
      ++ str "\" is too short. Be more descriptive.")).headD ' ' = 'C'
  rw [headD_append_left _ _ (append_ne_nil_left _ (by decide)),
      headD_append_left _ _ (by decide)]
  decide

theorem headD_msg_vagueFix (c : CommitRec) :
    (vagueFixIssue c).message.headD ' ' = '"' := by
  show ((str "\"" ++ c.message
      ++ str "\" - what exactly did you fix? Be specific.")).headD ' ' = '"'
  rw [headD_append_left _ _ (append_ne_nil_left _ (by decide)),
      headD_append_left _ _ (by decide)]
  decide

theorem noTests_mem_iff (codeFn : FileChange → List Issue) (prData : PullRequestData)
    (files : List FileChange) (commits : List CommitRec)
    (hcf : ∀ f i, i ∈ codeFn f → i.file = some f.filename) :
    noTestsIssue ∈ analyzeIssues codeFn prData files commits
      ↔ (hasCodeFiles files && !hasTestFiles files) = true := by
  rw [analyzeIssues]
  simp only [List.mem_append, mem_ite_singleton, List.mem_flatten, List.mem_map]
  constructor
  · rintro ((((((⟨hc, he⟩ | ⟨hc, he⟩)
        | ⟨l, ⟨c, hcm, rfl⟩, hmem⟩) | ⟨hc, he⟩)
        | ⟨l, ⟨f, hfm, rfl⟩, hmem⟩) | ⟨hc, he⟩) | ⟨hc, he⟩)
    · exact absurd he (issue_ne_of_headD (by rw [headD_msg_largeFiles]; decide))
    · exact absurd he (issue_ne_of_headD (fun hx => headD_msg_largeLines _ hx.symm))
    · rw [commitIssues] at hmem
      simp only [List.mem_append, mem_ite_singleton] at hmem
      rcases hmem with ⟨_, he⟩ | ⟨_, he⟩
      · exact absurd he (issue_ne_of_headD (by rw [headD_msg_shortCommit]; decide))
      · exact absurd he (issue_ne_of_headD (by rw [headD_msg_vagueFix]; decide))
    · exact hc
    · rcases hp : f.patch with _ | p
      · simp only [perFileIssues, hp] at hmem
        cases hmem
      · simp only [perFileIssues, hp] at hmem
        split_ifs at hmem
        · cases hmem
        · exact absurd (hcf f _ hmem) (by rw [show noTestsIssue.file = none from rfl]; simp)
    · exact absurd he (issue_ne_of_headD (by decide))
    · exact absurd he (issue_ne_of_headD (by decide))
  · intro h
    exact Or.inl (Or.inl (Or.inl (Or.inr ⟨h, trivial⟩)))

/-- C5: source files with no test-named file trigger the major no-tests
issue; a test-named file suppresses it and yields the tests-included
positive. -/
theorem C5_no_tests_rule (codeFn : FileChange → List Issue) (prData : PullRequestData)
    (files : List FileChange) (commits : List CommitRec)
    (hcf : ∀ f i, i ∈ codeFn f → i.file = some f.filename) :
    ((∃ f ∈ files, ((str ".ts").isSuffixOf f.filename = true
          ∨ (str ".js").isSuffixOf f.filename = true)
        ∧ containsSub (str "test") f.filename = false
        ∧ containsSub (str "spec") f.filename = false) →
      (∀ f ∈ files, matchesTestNaming f.filename = false) →
      noTestsIssue ∈ analyzeIssues codeFn prData files commits) ∧
    ((∃ f ∈ files, matchesTestNaming f.filename = true) →
      noTestsIssue ∉ analyzeIssues codeFn prData files commits ∧
      testsIncludedPositive ∈ analyzePositives prData files commits) := by
  have hht : hasTestFiles files = files.any (fun f => matchesTestNaming f.filename) := rfl
  constructor
  · rintro ⟨f, hf, hext, ht, hs⟩ hnone
    rw [noTests_mem_iff codeFn prData files commits hcf]
    have hcode : hasCodeFiles files = true := by
      rw [hasCodeFiles, List.any_eq_true]
      refine ⟨f, hf, ?_⟩
      rw [ht, hs]
      rcases hext with hx | hx <;> simp [hx]
    have htest : hasTestFiles files = false := by
      rw [hht]
      cases hany : files.any (fun f => matchesTestNaming f.filename) with
      | false => rfl
      | true =>
          obtain ⟨g, hg, hpg⟩ := List.any_eq_true.mp hany
          rw [hnone g hg] at hpg
          cases hpg
    rw [hcode, htest]
    rfl
  · rintro ⟨f, hf, hmt⟩
    have htest : hasTestFiles files = true := by
      rw [hht, List.any_eq_true]
      exact ⟨f, hf, hmt⟩
    constructor
    · rw [noTests_mem_iff codeFn prData files commits hcf, htest]
      simp
    · have hcond : files.any (fun g => containsSub (str "test") g.filename
          || containsSub (str "spec") g.filename) = true := by
        rw [List.any_eq_true]
        refine ⟨f, hf, ?_⟩
        rw [matchesTestNaming] at hmt
        simp only [Bool.or_eq_true] at hmt
        rcases hmt with ((hx | hx) | hx) | hx
        · simp [hx]
        · simp [hx]
        · have hcs : containsSub (str "test") f.filename = true := by
            rw [containsSub_iff_substring]
            exact (show (str "test") <:+: (str ".test.ts") by decide).trans
              (List.isSuffixOf_iff_suffix.mp hx).isInfix
          simp [hcs]
        · have hcs : containsSub (str "spec") f.filename = true := by
            rw [containsSub_iff_substring]
            exact (show (str "spec") <:+: (str ".spec.ts") by decide).trans
              (List.isSuffixOf_iff_suffix.mp hx).isInfix
          simp [hcs]
      rw [analyzePositives]
      simp only [List.mem_append, mem_ite_singleton]
      exact Or.inl (Or.inl (Or.inl (Or.inr ⟨hcond, trivial⟩)))

/-- C5 witness: `utils.ts` alone fires the no-tests issue; adding
`utils.test.ts` suppresses it and produces the tests-included positive. -/
theorem C5_no_tests_rule_witness :
    noTestsIssue ∈ analyzeIssues (fun _ => []) dummyPR [fileUtils] [] ∧
    noTestsIssue ∉ analyzeIssues (fun _ => []) dummyPR [fileUtils, fileUtilsTest] [] ∧
    testsIncludedPositive ∈ analyzePositives dummyPR [fileUtils, fileUtilsTest] [] := by
  refine ⟨?_, ?_⟩
  · exact (C5_no_tests_rule (fun _ => []) dummyPR [fileUtils] []
      (fun f i hi => nomatch hi)).1
      ⟨fileUtils, by simp, Or.inl (by decide), by decide, by decide⟩
      (by decide)
  · exact (C5_no_tests_rule (fun _ => []) dummyPR [fileUtils, fileUtilsTest] []
      (fun f i hi => nomatch hi)).2
      ⟨fileUtilsTest, by simp, by decide⟩

/-!  ## Claims C6 and C7: template phrase selection  -/

theorem getRandomOpening_critical (r : Nat) :
    getRandomOpening r (str "critical")
      = openingsCritical.getD (r % openingsCritical.length) [] := rfl

theorem getRandomOpening_major (r : Nat) :
    getRandomOpening r (str "major")
      = openingsMajor.getD (r % openingsMajor.length) [] := rfl

theorem getRandomOpening_positive (r : Nat) :
    getRandomOpening r (str "positive")
      = openingsPositive.getD (r % openingsPositive.length) [] := rfl

theorem getRandomOpening_neutral (r : Nat) :
    getRandomOpening r (str "neutral")
      = openingsNeutral.getD (r % openingsNeutral.length) [] := rfl

theorem openingFor_eq_specPool (a : PRAnalysis) (r1 : Nat) :
    openingFor a r1 = (specOpeningPool a).getD (r1 % (specOpeningPool a).length) [] := by
  rw [openingFor, specOpeningPool]
  by_cases h1 : countCritical a.issues > 0
  · rw [if_pos h1, if_pos (show 1 ≤ countCritical a.issues by omega)]
    exact getRandomOpening_critical r1
  · rw [if_neg h1, if_neg (show ¬ 1 ≤ countCritical a.issues by omega)]
    by_cases h2 : countMajor a.issues > 2
    · rw [if_pos h2, if_pos (show 2 < countMajor a.issues from h2)]
      exact getRandomOpening_major r1
    · rw [if_neg h2, if_neg (show ¬ 2 < countMajor a.issues from h2)]
      by_cases h3 : a.positives.length > a.issues.length
      · rw [if_pos h3, if_pos (show a.issues.length < a.positives.length from h3)]
        exact getRandomOpening_positive r1
      · rw [if_neg h3, if_neg (show ¬ a.issues.length < a.positives.length from h3)]
        exact getRandomOpening_neutral r1

theorem containsSub_append_left {p a : Str} (b : Str) (h : containsSub p a = true) :
    containsSub p (a ++ b) = true := by
  rw [containsSub_iff_substring] at h ⊢
  exact h.trans (List.prefix_append a b).isInfix

/-- C7: the opening bucket is the deterministic severity cascade the spec
states; only the index into the selected fixed pool is random, and the
selected phrase occurs in the generated template comment. -/
theorem C7_opening_bucket (a : PRAnalysis) (r1 r2 : Nat) :
    openingFor a r1 = (specOpeningPool a).getD (r1 % (specOpeningPool a).length) [] ∧
    containsSub (openingFor a r1) (generateTemplateComment a r1 r2) = true := by
  refine ⟨openingFor_eq_specPool a r1, ?_⟩
  rw [generateTemplateComment]
  apply containsSub_append_left
  apply containsSub_append_left
  apply containsSub_append_left
  apply containsSub_append_left
  apply containsSub_append_left
  apply containsSub_append_left
  apply containsSub_append_left
  apply containsSub_append_right
  exact containsSub_of_isPrefixOf (List.isPrefixOf_iff_prefix.mpr (List.prefix_refl _))

theorem getD_mod_len (l : List Str) (n : Nat) (hl : l.length = n) (r : Nat) :
    l.getD (r % l.length) [] = l.getD (r % n % l.length) [] := by
  rw [hl]
  congr 1
  exact (Nat.mod_mod_of_dvd r (dvd_refl n)).symm

theorem getRandomOpening_mod (r : Nat) (t : Str) :
    getRandomOpening r t = getRandomOpening (r % 4) t := by
  simp only [getRandomOpening]
  split_ifs
  · exact getD_mod_len openingsCritical 4 rfl r
  · exact getD_mod_len openingsMajor 4 rfl r
  · exact getD_mod_len openingsPositive 4 rfl r
  · exact getD_mod_len openingsNeutral 4 rfl r

theorem getRandomClosing_mod (r x y z : Nat) :
    getRandomClosing r x y z = getRandomClosing (r % 3) x y z := by
  simp only [getRandomClosing]
  split_ifs
  · exact getD_mod_len closingsNeedsWork 3 rfl r
  · exact getD_mod_len closingsShipIt 3 rfl r
  · exact getD_mod_len closingsMinorFixes 3 rfl r
  · exact getD_mod_len closingsSeveral 3 rfl r

theorem openingFor_mod (a : PRAnalysis) (r1 : Nat) :
    openingFor a r1 = openingFor a (r1 % 4) := by
  simp only [openingFor]
  split_ifs <;> exact getRandomOpening_mod r1 _

theorem closingFor_mod (a : PRAnalysis) (r2 : Nat) :
    closingFor a r2 = closingFor a (r2 % 3) := by
  simp only [closingFor]
  exact getRandomClosing_mod r2 _ _ _

theorem template_mod (a : PRAnalysis) (r1 r2 : Nat) :
    generateTemplateComment a r1 r2 = generateTemplateComment a (r1 % 4) (r2 % 3) := by
  rw [generateTemplateComment, generateTemplateComment, ← openingFor_mod, ← closingFor_mod]

theorem closingFor_eq_specPool (a : PRAnalysis) (r2 : Nat) :
    closingFor a r2 = (specClosingPool a).getD (r2 % 3) [] := by
  rw [closingFor, getRandomClosing, specClosingPool]
  by_cases h1 : countMajor a.issues > 3
  · rw [if_pos h1, if_pos (show 3 < countMajor a.issues from h1)]
    rfl
  · rw [if_neg h1, if_neg (show ¬ 3 < countMajor a.issues from h1)]
    by_cases h2 : a.issues.length = 0 ∧ a.positives.length > 0
    · rw [if_pos h2, if_pos (show a.issues.length = 0 ∧ 0 < a.positives.length from h2)]
      rfl
    · rw [if_neg h2, if_neg (show ¬ (a.issues.length = 0 ∧ 0 < a.positives.length) from h2)]
      by_cases h3 : a.issues.length ≤ 2
      · rw [if_pos h3, if_pos h3]
        rfl
      · rw [if_neg h3, if_neg h3]
        rfl

/-- C6: the closing line is chosen by the spec's threshold cascade (major
count > 3, else no issues and a positive, else at most two issues, else the
several-issues pool); with zero issues and a positive the closing comes from
the ship-it pool and appears in the output, and the concrete zero-issue
one-positive Analysis yields a comment without any Issues heading. -/
theorem C6_closing_thresholds (a : PRAnalysis) (r1 r2 : Nat) :
    closingFor a r2 = (specClosingPool a).getD (r2 % 3) [] ∧
    (a.issues = [] → a.positives ≠ [] →
      closingFor a r2 = closingsShipIt.getD (r2 % 3) [] ∧
      containsSub (closingFor a r2) (generateTemplateComment a r1 r2) = true) ∧
    containsSub (str "**Issues:**") (generateTemplateComment analysisShipIt r1 r2)
      = false := by
  refine ⟨closingFor_eq_specPool a r2, ?_, ?_⟩
  · intro hiss hpos
    constructor
    · rw [closingFor_eq_specPool a r2, specClosingPool]
      have hc : countMajor a.issues = 0 := by rw [hiss]; rfl
      have hl : a.issues.length = 0 := by rw [hiss]; rfl
      have hp : 0 < a.positives.length := List.length_pos.mpr hpos
      rw [if_neg (by omega), if_pos ⟨hl, hp⟩]
    · rw [generateTemplateComment]
      apply containsSub_append_left
      apply containsSub_append_right
      exact containsSub_of_isPrefixOf
        (List.isPrefixOf_iff_prefix.mpr (List.prefix_refl _))
  · rw [template_mod]
    have h1 : r1 % 4 < 4 := Nat.mod_lt _ (by decide)
    have h2 : r2 % 3 < 3 := Nat.mod_lt _ (by decide)
    exact (by decide : ∀ i, i < 4 → ∀ j, j < 3 →
        containsSub (str "**Issues:**") (generateTemplateComment analysisShipIt i j)
          = false) (r1 % 4) h1 (r2 % 3) h2

/-- C6 witness: the concrete ship-it Analysis at fixed random draws. -/
theorem C6_closing_thresholds_witness :
    closingFor analysisShipIt 0 = closingsShipIt.getD 0 [] ∧
    containsSub (closingFor analysisShipIt 0)
      (generateTemplateComment analysisShipIt 0 0) = true := by
  have h := (C6_closing_thresholds analysisShipIt 0 0).2.1 rfl (by decide)
  exact ⟨h.1, h.2⟩
